import Mathlib

/-!
Verification of the agentic-RAG repository's core algorithms against its
design specification: the sentence-aligned chunker (`chunk_text` in
`document-ingestion-api/ingestion_api.py`), the retrieval stores
(`GraniteDB2Store.similarity_search` in `deployment/shared/granite_db2_store.py`
and `SimpleDB.search` in `deployment/shared/simple_db.py`), and the
LangGraph orchestration loop plus HTTP handler (`search-api/search_api.py`).

Strings from the Python source are modelled as `List Char` (lowercasing is
`Char.toLower` character-wise, matching `str.lower` on the ASCII texts in
play); Python's whitespace `split()` and substring test (`in`) are embedded
below as executable functions.
-/

namespace RagSpec

/-- Python `a in b` for strings: `needle` occurs contiguously in `hay`.
`startsWithSeq hay needle` is the helper checking occurrence at the front. -/
def startsWithSeq : List Char → List Char → Bool
  | _, [] => true
  | [], _ :: _ => false
  | h :: hs, n :: ns => h == n && startsWithSeq hs ns

/-- Python `needle in hay` (substring containment; the empty needle is
contained in everything, as in Python). -/
def containsSeq : List Char → List Char → Bool
  | [], needle => needle.isEmpty
  | h :: t, needle => startsWithSeq (h :: t) needle || containsSeq t needle

/-- Python `s.lower()`, character-wise. -/
def lowerStr (s : List Char) : List Char := s.map Char.toLower

/-- Python `str.split()` with no argument: split on runs of whitespace,
discarding empty pieces. -/
def splitWords (s : List Char) : List (List Char) :=
  (s.splitOnP (fun c => c.isWhitespace)).filter (fun w => !w.isEmpty)

/-- Python `word.strip('.,!?;:')`: drop the listed punctuation characters
from both ends of the word. -/
def stripPunct (w : List Char) : List Char :=
  let p : Char → Bool := fun c => c == '.' || c == ',' || c == '!' || c == '?' || c == ';' || c == ':'
  ((w.dropWhile p).reverse.dropWhile p).reverse

/-! ## `SimpleDB` (`deployment/shared/simple_db.py`)

An in-memory keyword store: `data` is the insertion-ordered list of
documents; `search` filters it by the half-the-query-words heuristic. -/

/-- A document as stored by `SimpleDB.add_document`: `{'id', 'content', 'source'}`. -/
structure SimpleDoc where
  id : List Char
  content : List Char
  source : List Char
deriving DecidableEq, Repr

/-- `found_words` of `SimpleDB.search`: how many tokens of the query (after
lowercasing, whitespace splitting and punctuation stripping) occur as
substrings of the document's lowercased content. -/
def foundWords (queryWords : List (List Char)) (doc : SimpleDoc) : Nat :=
  queryWords.countP (fun w => containsSeq (lowerStr doc.content) (stripPunct w))

/-- The inclusion test of `SimpleDB.search`:
`found_words > 0 and found_words >= len(query_words) * 0.5`.
The float comparison `f >= n * 0.5` on naturals is exactly `2 * f ≥ n`. -/
def simpleDbMatches (queryWords : List (List Char)) (doc : SimpleDoc) : Bool :=
  let f := foundWords queryWords doc
  decide (0 < f) && decide (queryWords.length ≤ 2 * f)

/-- `SimpleDB.search`: scan `data` in insertion order, keeping the documents
that pass `simpleDbMatches` for the lowercased, whitespace-split query. -/
def simpleDbSearch (data : List SimpleDoc) (query : List Char) : List SimpleDoc :=
  let queryWords := splitWords (lowerStr query)
  data.filter (fun doc => simpleDbMatches queryWords doc)

/-! ## `GraniteDB2Store` (`deployment/shared/granite_db2_store.py`)

`similarity_search` has two modes: when `self.vectorstore` is set it
delegates to the external `DB2VS` vector store and reformats the returned
documents (lines 183-195); otherwise it linearly scans the in-memory
`simple_storage` for chunks whose lowercased content contains the lowercased
query, stopping once `k` results are collected (lines 196-208). The whole
body is wrapped in `try/except` returning `[]`, so the fallback branch —
pure list traversal — never raises; the embedding below is total. -/

/-- A chunk dict as built by `add_documents` (lines 121-126) and stored by
`_fallback_to_simple_storage`; also the shape of a result returned by the
fallback branch of `similarity_search` (the chunks are returned unchanged). -/
structure SearchResult where
  id : String
  content : List Char
  source : String
  metadata : List (String × String)
deriving DecidableEq, Repr

/-- The literal key order of the chunk dict built at lines 121-126. -/
def chunkDictKeys : List String := ["id", "content", "source", "metadata"]

/-- The literal key order of the formatted-result dict built at lines 188-193
of the primary (vector-store) branch of `similarity_search`. -/
def formattedResultKeys : List String := ["id", "content", "metadata", "source"]

/-- A document as returned by the external `DB2VS.similarity_search`. -/
structure VsDoc where
  page_content : List Char
  metadata : List (String × String)
deriving DecidableEq, Repr

/-- Python `dict.get(key, default)` on a metadata dict. -/
def metaGet : List (String × String) → String → String → String
  | [], _, d => d
  | (k, v) :: t, key, d => if k == key then v else metaGet t key d

/-- One formatted result of the primary branch (lines 188-193):
`{'id': f'result_{i}', 'content': doc.page_content, 'metadata': doc.metadata,
'source': doc.metadata.get('source', 'unknown')}`. -/
def formatOne (i : Nat) (doc : VsDoc) : SearchResult :=
  { id := "result_" ++ toString i
    content := doc.page_content
    metadata := doc.metadata
    source := metaGet doc.metadata "source" "unknown" }

/-- The store state of `GraniteDB2Store` that `similarity_search` reads:
`vectorstore` (the external `DB2VS` handle, modelled by its search function,
`none` until a successful DB2 ingest sets it) and `simple_storage`. -/
structure GraniteStore where
  vectorstore : Option (List Char → Nat → List VsDoc)
  simple_storage : List SearchResult

/-- A freshly initialized store (`__init__`, lines 83 and 90): no vector
store handle, empty fallback storage — the state of a store into which
nothing has been ingested. -/
def emptyStore : GraniteStore := { vectorstore := none, simple_storage := [] }

/-- The fallback loop of `similarity_search` (lines 198-208): append each
chunk whose lowercased content contains the lowercased query and break as
soon as `len(results) >= k`. -/
def fallbackSearchLoop (storage : List SearchResult) (ql : List Char) (k : Nat)
    (results : List SearchResult) : List SearchResult :=
  match storage with
  | [] => results
  | c :: rest =>
    if containsSeq (lowerStr c.content) ql then
      let results' := results ++ [c]
      if k ≤ results'.length then results'
      else fallbackSearchLoop rest ql k results'
    else fallbackSearchLoop rest ql k results

/-- `GraniteDB2Store.similarity_search` (lines 180-212). -/
def similaritySearch (store : GraniteStore) (query : List Char) (k : Nat) :
    List SearchResult :=
  match store.vectorstore with
  | some vs => ((vs query k).enum).map (fun p => formatOne p.1 p.2)
  | none => fallbackSearchLoop store.simple_storage (lowerStr query) k []

/-- A concrete fallback-mode chunk used in counterexamples and witnesses. -/
def chunkA : SearchResult :=
  { id := "doc1_chunk_0", content := ['m', 'a', 'c', 'h', 'i', 'n', 'e']
    source := "a.com", metadata := [] }

/-- A second concrete fallback-mode chunk, distinct from `chunkA`. -/
def chunkB : SearchResult :=
  { id := "doc2_chunk_0", content := ['l', 'e', 'a', 'r', 'n', 'm', 'a', 'c']
    source := "b.com", metadata := [] }

/-! ## `chunk_text` (`document-ingestion-api/ingestion_api.py`, lines 99-138)

The spaCy sentence splitter is an external collaborator (the spec's contract
is on the chunks given the sentences), so the embedding starts from the
sentence list. A sentence is modelled as its whitespace-`split()` word list,
so `len(sentence.split())` is `List.length`, and an emitted chunk — Python's
`" ".join(current_chunk)` — is modelled as the list of its sentences, whose
total word count equals the joined string's (the sentences are non-empty and
stripped, and words contain no whitespace).

The Python `while i < len(sentences)` loop does not always terminate (the
`else` branch never advances `i`), so the loop is embedded with explicit
fuel: `none` means the fuel ran out. -/

/-- A sentence, as its list of words. -/
abbrev Sentence := List String

/-- Total word count of a list of sentences (the word count of the chunk
obtained by joining them with spaces). -/
def wordSum (c : List Sentence) : Nat := (c.map List.length).sum

/-- The inner overlap loop of `chunk_text` (lines 122-130): walk the emitted
chunk backwards (`rev` is the chunk reversed), prepending sentences while the
accumulated word count is still below `overlap_words`. Returns the overlap
(in original order) and the final accumulated count (`acc` plus the overlap's
words). -/
def buildOverlap : List Sentence → Nat → Nat → List Sentence × Nat
  | [], _, acc => ([], acc)
  | s :: rest, ow, acc =>
    if acc < ow then
      let r := buildOverlap rest ow (acc + s.length)
      (r.1 ++ [s], r.2)
    else ([], acc)

/-- The main loop of `chunk_text` (lines 108-136), with explicit fuel:
accept a sentence while the running count stays within `max_words`
(lines 113-116); otherwise emit the running chunk and reseed it with the
overlap (lines 117-133) — without consuming the sentence. After the loop the
non-empty remainder is flushed (lines 135-136). -/
def chunkLoop : Nat → List Sentence → Nat → Nat → List (List Sentence) →
    List Sentence → Nat → Option (List (List Sentence))
  | 0, _, _, _, _, _, _ => none
  | fuel + 1, sentences, mw, ow, chunks, current, clen =>
    match sentences with
    | [] => some (chunks ++ if current.isEmpty then [] else [current])
    | s :: rest =>
      if clen + s.length ≤ mw then
        chunkLoop fuel rest mw ow chunks (current ++ [s]) (clen + s.length)
      else
        let ov := buildOverlap current.reverse ow 0
        chunkLoop fuel (s :: rest) mw ow (chunks ++ [current]) ov.1 ov.2

/-- `chunk_text(text, max_words, overlap_words)` from the sentence list,
with fuel. -/
def chunkText (sentences : List Sentence) (mw ow fuel : Nat) :
    Option (List (List Sentence)) :=
  chunkLoop fuel sentences mw ow [] [] 0

/-- Concrete three-word sentence for witnesses and counterexamples. -/
def sentA : Sentence := ["a", "b", "c"]

/-- Concrete three-word sentence for witnesses and counterexamples. -/
def sentB : Sentence := ["d", "e", "f"]

/-- Concrete five-word sentence for witnesses and counterexamples. -/
def sentC : Sentence := ["g", "h", "i", "j", "k"]

/-! ## The orchestration graph and `/search` handler (`search-api/search_api.py`)

`build_graph` (lines 132-147) wires four nodes: `generate_query_or_respond`,
`retrieve` (the tool node), `rewrite_question` and `generate_answer`, with
conditional edges `tools_condition` (tool call → `retrieve`, otherwise
`END`) and `grade_documents` (→ `generate_answer` or `rewrite_question`),
plus `generate_answer → END` and `rewrite_question →
generate_query_or_respond`. It sets no iteration bound of its own; execution
is cut off by the graph engine's recursion limit (default 25 supersteps),
which raises a recursion error rather than routing anywhere. -/

/-- The node set of the workflow graph. `END` is represented as `none` in
the step function. -/
inductive Node where
  | generate_query_or_respond
  | retrieve
  | rewrite_question
  | generate_answer
deriving DecidableEq, Repr

/-- The conditional edge out of `retrieve` (`grade_documents`,
lines 104-113): the literal relevant token is `"yes"`; any other
`binary_score` routes to `rewrite_question`. -/
def gradeDocuments (binary_score : String) : Node :=
  if binary_score == "yes" then .generate_answer else .rewrite_question

/-- The model decisions driving a run: whether the bound LLM requests the
retrieval tool at its nth `generate_query_or_respond` visit
(`tools_condition`, line 142), and the grader's `binary_score` at its nth
invocation. -/
structure Oracle where
  callsTool : Nat → Bool
  grade : Nat → String

/-- One superstep of the compiled graph: the next node (`none` = `END`) and
the updated visit counters, following the edges added at lines 141-145. -/
def nextNode (o : Oracle) : Node → Nat × Nat → Option Node × (Nat × Nat)
  | .generate_query_or_respond, (d, g) =>
    (if o.callsTool d then some .retrieve else none, (d + 1, g))
  | .retrieve, (d, g) => (some (gradeDocuments (o.grade g)), (d, g + 1))
  | .rewrite_question, c => (some .generate_query_or_respond, c)
  | .generate_answer, c => (none, c)

/-- Outcome of streaming the graph: normal arrival at `END`, or the
recursion error the engine raises when the superstep budget is exhausted
before `END` is reached. -/
inductive GraphOutcome where
  | ended
  | recursionError
deriving DecidableEq, Repr

/-- Execute supersteps from a node with the given budget (the engine's
recursion limit), recording every node visited in order. -/
def runGraph (o : Oracle) : Nat → Node → Nat × Nat → List Node × GraphOutcome
  | 0, _, _ => ([], .recursionError)
  | fuel + 1, n, c =>
    match nextNode o n c with
    | (none, _) => ([n], .ended)
    | (some m, c') =>
      let r := runGraph o fuel m c'
      (n :: r.1, r.2)

/-- A full run of the compiled workflow on one question: the entry edge is
`START → generate_query_or_respond` (line 141). -/
def runWorkflow (o : Oracle) (limit : Nat) : List Node × GraphOutcome :=
  runGraph o limit .generate_query_or_respond (0, 0)

/-- The graph engine's default recursion limit, in effect because
`build_graph` compiles the graph without overriding it. -/
def defaultRecursionLimit : Nat := 25

/-- An oracle on which the model always requests retrieval and the grader
never returns the relevant token. -/
def stubbornOracle : Oracle :=
  { callsTool := fun _ => true, grade := fun _ => "no" }

/-- The `SearchResponse` model of the search service (lines 40-43). -/
structure SearchResponse where
  success : Bool
  answer : String
deriving DecidableEq, Repr

/-- The declared field names of the `SearchResponse` model, in declaration
order (lines 40-43). -/
def searchResponseFields : List String := ["success", "answer"]

/-- The two HTTP 500 errors the `/search` handler can produce after
initialization: the both-failed error carrying the graph error's message
(lines 213-217) and the empty-answer error (lines 219-220). -/
inductive SearchError where
  | bothFailed (graphErr : String)
  | noAnswer
deriving DecidableEq, Repr

/-- The `/search` handler (lines 186-227), over the outcomes of its
effectful calls: `graphRun` is the `final_answer` extracted from streaming
the graph (the content of the last `generate_answer` update, `""` when the
stream produced no such update), or the exception the stream raised;
`fallbackRetrieve` is `retriever_tool.invoke`; `fallbackGenerate` is the
`llm.invoke` call on the prompt built from the retrieved docs. The
empty-answer check (line 219) runs after either path. -/
def searchHandler (graphRun : Except String String)
    (fallbackRetrieve : Except String String)
    (fallbackGenerate : String → Except String String) :
    Except SearchError SearchResponse :=
  let attempt : Except SearchError String :=
    match graphRun with
    | .ok a => .ok a
    | .error ge =>
      match fallbackRetrieve with
      | .ok docs =>
        match fallbackGenerate docs with
        | .ok a => .ok a
        | .error _ => .error (.bothFailed ge)
      | .error _ => .error (.bothFailed ge)
  match attempt with
  | .error e => .error e
  | .ok a => if a = "" then .error .noAnswer else .ok { success := true, answer := a }

end RagSpec

namespace RagSpec

/-- The fallback loop of `similarity_search` is the `k`-prefix of the
containment filter (in insertion order), relative to what is already
accumulated. -/
theorem fallbackSearchLoop_eq_take (storage : List SearchResult) (ql : List Char)
    (k : Nat) (acc : List SearchResult) (h : acc.length < k) :
    fallbackSearchLoop storage ql k acc =
      acc ++ (storage.filter (fun c => containsSeq (lowerStr c.content) ql)).take
        (k - acc.length) := by
  induction storage generalizing acc with
  | nil => simp [fallbackSearchLoop]
  | cons c rest ih =>
    by_cases hc : containsSeq (lowerStr c.content) ql
    · rw [fallbackSearchLoop]
      simp only [hc, if_true]
      by_cases hk : k ≤ (acc ++ [c]).length
      · have hlen : k = acc.length + 1 := by
          simp only [List.length_append, List.length_singleton] at hk
          omega
        simp only [hk, if_true, hlen, List.filter_cons, hc]
        have : acc.length + 1 - acc.length = 1 := by omega
        simp [this]
      · simp only [hk, if_false]
        have h' : (acc ++ [c]).length < k := by omega
        rw [ih (acc ++ [c]) h']
        have h2 : k - acc.length = (k - (acc ++ [c]).length) + 1 := by
          simp only [List.length_append, List.length_singleton] at hk ⊢
          omega
        rw [h2]
        simp [List.filter_cons, hc, List.take_succ_cons, List.append_assoc]
    · rw [fallbackSearchLoop]
      simp only [hc, if_false]
      rw [ih acc h]
      simp [List.filter_cons, hc]

/-- C10: membership in `SimpleDB.search` results is equivalent to being a
stored document on which at least one, and at least half, of the query's
lowercased punctuation-stripped words occur as substrings of the lowercased
content; and the result list is a sublist of the store (insertion order
preserved). -/
theorem simpleDbSearch_mem_iff_and_sublist (data : List SimpleDoc) (query : List Char) :
    (simpleDbSearch data query).Sublist data ∧
    ∀ doc : SimpleDoc,
      doc ∈ simpleDbSearch data query ↔
        doc ∈ data ∧
          (0 < foundWords (splitWords (lowerStr query)) doc ∧
            (splitWords (lowerStr query)).length ≤
              2 * foundWords (splitWords (lowerStr query)) doc) := by
  constructor
  · exact List.filter_sublist data
  · intro doc
    unfold simpleDbSearch
    rw [List.mem_filter]
    unfold simpleDbMatches
    simp [Bool.and_eq_true, decide_eq_true_eq]

/-- C6: `GraniteDB2Store.similarity_search` on a store into which nothing has
been ingested (the freshly-initialized state: no vector-store handle, empty
fallback storage) returns the empty list for every query and every `k`. The
embedding is a total function — and in the source the entire body is
additionally wrapped in `try/except` returning `[]` — so no error escapes. -/
theorem similaritySearch_emptyStore (query : List Char) (k : Nat) :
    similaritySearch emptyStore query k = [] := rfl

/-- C5 counterexample: in fallback mode, `similarity_search` returns results
in insertion order — two stores holding the same two distinct matching chunks
in opposite orders return them in those opposite orders — and the result
dicts of both modes carry no `score` key at all, so the results are not
ordered by any similarity score attached to them. -/
theorem similaritySearch_no_score_insertion_order :
    similaritySearch { vectorstore := none, simple_storage := [chunkA, chunkB] }
        ['m', 'a', 'c'] 5 = [chunkA, chunkB] ∧
    similaritySearch { vectorstore := none, simple_storage := [chunkB, chunkA] }
        ['m', 'a', 'c'] 5 = [chunkB, chunkA] ∧
    chunkA ≠ chunkB ∧
    "score" ∉ formattedResultKeys ∧
    "score" ∉ chunkDictKeys :=
  ⟨by decide, by decide, by decide, by decide, by decide⟩

/-- C5 amended: for every positive `k`, `similarity_search` returns at most
`k` results in both modes — in fallback mode the result is exactly the
`k`-prefix of the insertion-ordered containment filter of the stored chunks,
and in primary mode the length bound holds whenever the external `DB2VS`
vector store honours its own at-most-`k` contract; no similarity score is
attached to results in either mode. -/
theorem similaritySearch_le_k_and_order
    (storage : List SearchResult) (vs : List Char → Nat → List VsDoc)
    (query : List Char) (k : Nat) (hk : 0 < k)
    (hvs : ∀ q n, (vs q n).length ≤ n) :
    (similaritySearch { vectorstore := none, simple_storage := storage } query k =
        (storage.filter
          (fun c => containsSeq (lowerStr c.content) (lowerStr query))).take k ∧
      (similaritySearch { vectorstore := none, simple_storage := storage }
          query k).length ≤ k) ∧
    (similaritySearch { vectorstore := some vs, simple_storage := storage }
        query k).length ≤ k := by
  have h0 : similaritySearch { vectorstore := none, simple_storage := storage } query k
      = (storage.filter
          (fun c => containsSeq (lowerStr c.content) (lowerStr query))).take k := by
    have h := fallbackSearchLoop_eq_take storage (lowerStr query) k [] (by simpa using hk)
    simpa [similaritySearch] using h
  refine ⟨⟨h0, ?_⟩, ?_⟩
  · rw [h0, List.length_take]
    exact min_le_left _ _
  · simp only [similaritySearch, List.length_map, List.enum_length]
    exact hvs query k

/-- The accumulated count returned by the overlap loop is the initial count
plus the words of the overlap it built. -/
theorem buildOverlap_snd (rev : List Sentence) (ow acc : Nat) :
    (buildOverlap rev ow acc).2 = acc + wordSum (buildOverlap rev ow acc).1 := by
  induction rev generalizing acc with
  | nil => simp [buildOverlap, wordSum]
  | cons s rest ih =>
    by_cases h : acc < ow
    · simp only [buildOverlap, h, if_true]
      rw [ih (acc + s.length)]
      simp [wordSum, List.map_append, List.sum_append]
      omega
    · simp [buildOverlap, h, wordSum]

/-- The overlap is a suffix of the chunk it was computed from (which arrives
reversed). -/
theorem buildOverlap_suffix (rev : List Sentence) (ow acc : Nat) :
    (buildOverlap rev ow acc).1 <:+ rev.reverse := by
  induction rev generalizing acc with
  | nil => simp [buildOverlap]
  | cons s rest ih =>
    by_cases h : acc < ow
    · simp only [buildOverlap, h, if_true, List.reverse_cons]
      obtain ⟨t, ht⟩ := ih (acc + s.length)
      exact ⟨t, by rw [← List.append_assoc, ht]⟩
    · simp only [buildOverlap, h, if_false]
      exact List.nil_suffix

/-- Minimality of the overlap: every sentence the loop took was taken while
the words strictly after it (plus the initial count) were still below the
budget. In particular, dropping the overlap's first sentence leaves fewer
than `overlap_words` words. -/
theorem buildOverlap_minimal (rev : List Sentence) (ow acc : Nat)
    (a : List Sentence) (x : Sentence) (b : List Sentence)
    (h : (buildOverlap rev ow acc).1 = a ++ x :: b) :
    acc + wordSum b < ow := by
  induction rev generalizing acc a x b with
  | nil => simp [buildOverlap] at h
  | cons s rest ih =>
    by_cases hlt : acc < ow
    · simp only [buildOverlap, hlt, if_true] at h
      rcases List.eq_nil_or_concat b with hb | ⟨b', y, hb⟩
      · subst hb
        simpa [wordSum] using hlt
      · subst hb
        have h' : (buildOverlap rest ow (acc + s.length)).1 ++ [s] =
            (a ++ x :: b') ++ [y] := by
          rw [h]
          simp [List.append_assoc]
        have hinj := List.append_inj' h' rfl
        have hih := ih (acc + s.length) a x b' hinj.1
        have hy : y = s := by
          have := hinj.2
          simpa using this.symm
        subst hy
        simp only [wordSum, List.map_append, List.sum_append] at hih ⊢
        simp
        omega
    · simp [buildOverlap, hlt] at h

/-- The overlap loop stops only once the budget is reached, or after
consuming the whole chunk. -/
theorem buildOverlap_reaches (rev : List Sentence) (ow acc : Nat) :
    ow ≤ (buildOverlap rev ow acc).2 ∨ (buildOverlap rev ow acc).1 = rev.reverse := by
  induction rev generalizing acc with
  | nil => right; simp [buildOverlap]
  | cons s rest ih =>
    by_cases h : acc < ow
    · simp only [buildOverlap, h, if_true]
      rcases ih (acc + s.length) with h2 | h2
      · left; exact h2
      · right
        rw [h2]
        simp
    · left
      simp only [buildOverlap, h, if_false]
      omega

/-- Recomputing the overlap of a list that already satisfies the minimality
property returns the whole list: the overlap operation is a no-op on its own
output. -/
theorem buildOverlap_of_minimal (ov : List Sentence) (ow : Nat) :
    ∀ acc : Nat, (∀ a x b, ov = a ++ x :: b → acc + wordSum b < ow) →
      buildOverlap ov.reverse ow acc = (ov, acc + wordSum ov) := by
  induction ov using List.reverseRecOn with
  | nil => intro acc _; simp [buildOverlap, wordSum]
  | append_singleton init last ih =>
    intro acc hmin
    have hlt : acc < ow := by
      have := hmin init last [] (by simp)
      simpa [wordSum] using this
    rw [List.reverse_append]
    simp only [List.reverse_singleton, List.singleton_append]
    simp only [buildOverlap, hlt, if_true]
    have ih' := ih (acc + last.length) (fun a x b hi => by
      have := hmin a x (b ++ [last]) (by rw [hi]; simp [List.append_assoc])
      simp only [wordSum, List.map_append, List.sum_append] at this ⊢
      simp at this
      omega)
    rw [ih', Prod.mk.injEq]
    refine ⟨rfl, ?_⟩
    simp [wordSum, List.map_append, List.sum_append]
    omega

/-- Reseeding is idempotent: computing the overlap of an overlap returns it
unchanged, with the same accumulated count. -/
theorem buildOverlap_idem (rev : List Sentence) (ow : Nat) :
    buildOverlap (buildOverlap rev ow 0).1.reverse ow 0 =
      ((buildOverlap rev ow 0).1, (buildOverlap rev ow 0).2) := by
  have hmin : ∀ a x b, (buildOverlap rev ow 0).1 = a ++ x :: b →
      0 + wordSum b < ow := fun a x b h => by
    simpa using buildOverlap_minimal rev ow 0 a x b h
  rw [buildOverlap_of_minimal (buildOverlap rev ow 0).1 ow 0 hmin, Prod.mk.injEq]
  refine ⟨rfl, ?_⟩
  have h2 := buildOverlap_snd rev ow 0
  omega

/-- The stuck configuration of `chunk_text`: when the pending sentence does
not fit and the running chunk is its own overlap (as every reseeded chunk
is), the `else` branch re-emits and reseeds the identical state forever —
the loop never returns, whatever the fuel. -/
theorem chunkLoop_stuck (fuel : Nat) (s : Sentence) (rest : List Sentence)
    (mw ow : Nat) (chunks : List (List Sentence)) (current : List Sentence)
    (clen : Nat) (hbig : mw < clen + s.length)
    (hfix : buildOverlap current.reverse ow 0 = (current, clen)) :
    chunkLoop fuel (s :: rest) mw ow chunks current clen = none := by
  induction fuel generalizing chunks with
  | zero => rfl
  | succ n ih =>
    have hle : ¬ (clen + s.length ≤ mw) := by omega
    simp only [chunkLoop, hle, if_false, hfix]
    exact ih (chunks ++ [current])

/-- C2: the claim fails on the code — on a single sentence longer than
`max_words` (here a 3-word sentence with `max_words = 2`,
`overlap_words = 1`, a valid parameter pair), `chunk_text` never terminates:
the `else` branch never advances the sentence index and reseeds an empty
running chunk forever, so the loop returns nothing at any fuel, instead of
emitting the sentence as its own oversized chunk. -/
theorem chunkText_diverges_on_oversized_sentence :
    (0 < 1 ∧ 1 < 2) ∧ ∀ fuel, chunkText [sentA] 2 1 fuel = none := by
  refine ⟨by decide, fun fuel => ?_⟩
  unfold chunkText
  exact chunkLoop_stuck fuel sentA [] 2 1 [] [] 0 (by decide) (by rfl)

/-- Invariant of the `chunk_text` loop: in any returning execution every
chunk added to the accumulator has word count within `max_words`. The
invariant carries (i) that the tracked count equals the running chunk's word
count and (ii) that the running chunk is either within budget or a reseeded
overlap (a fixed point of reseeding) with sentences still pending — in the
latter case the loop is stuck and cannot return, by `chunkLoop_stuck`. -/
theorem chunkLoop_chunks_bounded :
    ∀ (fuel : Nat) (sents : List Sentence) (mw ow : Nat)
      (chunks : List (List Sentence)) (current : List Sentence) (clen : Nat)
      (out : List (List Sentence)),
      chunkLoop fuel sents mw ow chunks current clen = some out →
      clen = wordSum current →
      (clen ≤ mw ∨ (sents ≠ [] ∧ buildOverlap current.reverse ow 0 = (current, clen))) →
      ∀ c ∈ out, c ∈ chunks ∨ wordSum c ≤ mw := by
  intro fuel
  induction fuel with
  | zero =>
    intro sents mw ow chunks current clen out h
    exact absurd h (by simp [chunkLoop])
  | succ n ih =>
    intro sents mw ow chunks current clen out h hlen hinv
    cases sents with
    | nil =>
      simp only [chunkLoop, Option.some.injEq] at h
      have hcl : clen ≤ mw := by
        rcases hinv with h1 | ⟨h2, _⟩
        · exact h1
        · exact absurd rfl h2
      intro c hc
      rw [← h, List.mem_append] at hc
      rcases hc with h1 | h1
      · exact Or.inl h1
      · right
        by_cases he : current.isEmpty
        · simp [he] at h1
        · simp [he] at h1
          rw [h1, ← hlen]
          exact hcl
    | cons s rest =>
      by_cases hfit : clen + s.length ≤ mw
      · simp only [chunkLoop, hfit, if_true] at h
        refine ih rest mw ow chunks (current ++ [s]) (clen + s.length) out h ?_
          (Or.inl hfit)
        simp only [wordSum, List.map_append, List.sum_append] at hlen ⊢
        simp
        omega
      · simp only [chunkLoop, hfit, if_false] at h
        by_cases hcl : clen ≤ mw
        · have hsnd := buildOverlap_snd current.reverse ow 0
          have hres := ih (s :: rest) mw ow (chunks ++ [current])
            (buildOverlap current.reverse ow 0).1 (buildOverlap current.reverse ow 0).2
            out h (by omega)
            (Or.inr ⟨List.cons_ne_nil s rest, buildOverlap_idem current.reverse ow⟩)
          intro c hc
          rcases hres c hc with hin | hle
          · rw [List.mem_append] at hin
            rcases hin with h1 | h1
            · exact Or.inl h1
            · right
              have hcur : c = current := by simpa using h1
              rw [hcur, ← hlen]
              exact hcl
          · exact Or.inr hle
        · rcases hinv with h1 | ⟨_, hfix⟩
          · omega
          · rw [hfix] at h
            rw [chunkLoop_stuck n s rest mw ow (chunks ++ [current]) current clen
              (by omega) hfix] at h
            exact absurd h (by simp)

/-- C4: whenever `chunk_text` returns, every emitted chunk's word count is
at most `max_words` — so in particular each chunk is within budget or is a
single sentence longer than `max_words`, as the claim states. (The
exceptional disjunct is in fact never realized: an execution that would have
to emit an oversized chunk gets stuck in the `else` branch and never
returns.) -/
theorem chunkText_chunk_words_le (sents : List Sentence) (mw ow fuel : Nat)
    (out : List (List Sentence)) (h : chunkText sents mw ow fuel = some out) :
    ∀ c ∈ out, wordSum c ≤ mw ∨ ∃ s : Sentence, c = [s] ∧ mw < s.length := by
  intro c hc
  have hres := chunkLoop_chunks_bounded fuel sents mw ow [] [] 0 out h
    (by simp [wordSum]) (Or.inl (Nat.zero_le mw)) c hc
  rcases hres with h1 | h1
  · exact absurd h1 (List.not_mem_nil c)
  · exact Or.inl h1

/-- C4, witness: a concrete terminating run of `chunk_text`. -/
theorem chunkText_chunk_words_le_witness :
    chunkText [sentA, sentB, sentC] 8 2 10 = some [[sentA, sentB], [sentB, sentC]] ∧
    ∀ c ∈ [[sentA, sentB], [sentB, sentC]],
      wordSum c ≤ 8 ∨ ∃ s : Sentence, c = [s] ∧ 8 < s.length :=
  ⟨rfl, chunkText_chunk_words_le [sentA, sentB, sentC] 8 2 10
    [[sentA, sentB], [sentB, sentC]] rfl⟩

/-- Invariant of the `chunk_text` loop for the overlap-seeding relation:
each chunk of the final output after the first extends the overlap computed
from its predecessor. The pending premise relates the running chunk to the
last emitted one. -/
theorem chunkLoop_chain :
    ∀ (fuel : Nat) (sents : List Sentence) (mw ow : Nat)
      (chunks : List (List Sentence)) (current : List Sentence) (clen : Nat)
      (out : List (List Sentence)),
      chunkLoop fuel sents mw ow chunks current clen = some out →
      List.Chain' (fun c c' => ∃ extra,
        c' = (buildOverlap c.reverse ow 0).1 ++ extra) chunks →
      (∀ last, chunks.getLast? = some last →
        ∃ extra, current = (buildOverlap last.reverse ow 0).1 ++ extra) →
      List.Chain' (fun c c' => ∃ extra,
        c' = (buildOverlap c.reverse ow 0).1 ++ extra) out := by
  intro fuel
  induction fuel with
  | zero =>
    intro sents mw ow chunks current clen out h
    exact absurd h (by simp [chunkLoop])
  | succ n ih =>
    intro sents mw ow chunks current clen out h hchain hpend
    cases sents with
    | nil =>
      simp only [chunkLoop, Option.some.injEq] at h
      by_cases he : current.isEmpty
      · simp [he] at h
        rw [← h]
        exact hchain
      · simp [he] at h
        rw [← h, List.chain'_append]
        refine ⟨hchain, List.chain'_singleton _, fun x hx y hy => ?_⟩
        have hy' : current = y := by simpa using hy
        rw [← hy']
        exact hpend x (Option.mem_def.mp hx)
    | cons s rest =>
      by_cases hfit : clen + s.length ≤ mw
      · simp only [chunkLoop, hfit, if_true] at h
        refine ih rest mw ow chunks (current ++ [s]) (clen + s.length) out h hchain ?_
        intro last hl
        obtain ⟨extra, he⟩ := hpend last hl
        exact ⟨extra ++ [s], by rw [he, List.append_assoc]⟩
      · simp only [chunkLoop, hfit, if_false] at h
        refine ih (s :: rest) mw ow (chunks ++ [current])
          (buildOverlap current.reverse ow 0).1 (buildOverlap current.reverse ow 0).2
          out h ?_ ?_
        · rw [List.chain'_append]
          refine ⟨hchain, List.chain'_singleton _, fun x hx y hy => ?_⟩
          simp only [List.head?_cons, Option.mem_def, Option.some.injEq] at hy
          rw [← hy]
          exact hpend x (Option.mem_def.mp hx)
        · intro last hl
          have hcur : last = current := by
            rw [List.getLast?_concat] at hl
            exact (Option.some.injEq _ _ ▸ hl).symm
          rw [hcur]
          exact ⟨[], by simp⟩

/-- C3 counterexample: on a concrete terminating run with valid parameters
(`max_words = 8`, `overlap_words = 2`), the overlap seeded from the first
emitted chunk into the second is the sentence list `[sentB]`, whose
cumulative word count is 3 — strictly more than `overlap_words = 2` — so the
overlap region's word count is not bounded by the overlap budget as claimed. -/
theorem chunkText_overlap_exceeds_budget :
    chunkText [sentA, sentB, sentC] 8 2 10 = some [[sentA, sentB], [sentB, sentC]] ∧
    (buildOverlap [sentA, sentB].reverse 2 0).1 = [sentB] ∧
    ¬ wordSum (buildOverlap [sentA, sentB].reverse 2 0).1 ≤ 2 :=
  ⟨rfl, rfl, by decide⟩

/-- C3 amended: whenever `chunk_text` returns, each output chunk after the
first begins with the overlap computed from its predecessor; that overlap is
a trailing suffix of whole sentences of the predecessor, it is minimal —
dropping its first sentence leaves fewer than `overlap_words` words — and
its cumulative word count is at least `overlap_words` unless it is the whole
predecessor chunk (so it may overshoot the budget by part of one sentence,
but never undershoot it). -/
theorem chunkText_overlap_seed (sents : List Sentence) (mw ow fuel : Nat)
    (out : List (List Sentence)) (h : chunkText sents mw ow fuel = some out) :
    List.Chain' (fun c c' => ∃ extra,
      c' = (buildOverlap c.reverse ow 0).1 ++ extra) out ∧
    ∀ c : List Sentence,
      (buildOverlap c.reverse ow 0).1 <:+ c ∧
      (∀ a x b, (buildOverlap c.reverse ow 0).1 = a ++ x :: b → wordSum b < ow) ∧
      (ow ≤ wordSum (buildOverlap c.reverse ow 0).1 ∨
        (buildOverlap c.reverse ow 0).1 = c) := by
  constructor
  · exact chunkLoop_chain fuel sents mw ow [] [] 0 out h List.chain'_nil
      (fun last hl => by simp at hl)
  · intro c
    refine ⟨?_, ?_, ?_⟩
    · have hs := buildOverlap_suffix c.reverse ow 0
      simpa using hs
    · intro a x b hab
      have hm := buildOverlap_minimal c.reverse ow 0 a x b hab
      simpa using hm
    · have hr := buildOverlap_reaches c.reverse ow 0
      have hsnd := buildOverlap_snd c.reverse ow 0
      rcases hr with h1 | h1
      · left
        omega
      · right
        simpa using h1

/-- C3 amended, witness: the amended overlap-seeding property at a concrete
terminating run. -/
theorem chunkText_overlap_seed_witness :
    chunkText [sentA, sentB, sentC] 8 2 10 = some [[sentA, sentB], [sentB, sentC]] ∧
    (List.Chain' (fun c c' => ∃ extra,
        c' = (buildOverlap c.reverse 2 0).1 ++ extra) [[sentA, sentB], [sentB, sentC]] ∧
      ∀ c : List Sentence,
        (buildOverlap c.reverse 2 0).1 <:+ c ∧
        (∀ a x b, (buildOverlap c.reverse 2 0).1 = a ++ x :: b → wordSum b < 2) ∧
        (2 ≤ wordSum (buildOverlap c.reverse 2 0).1 ∨
          (buildOverlap c.reverse 2 0).1 = c)) :=
  ⟨rfl, chunkText_overlap_seed [sentA, sentB, sentC] 8 2 10
    [[sentA, sentB], [sentB, sentC]] rfl⟩

/-- C5 amended, witness at a concrete store, query and `k`. -/
theorem similaritySearch_le_k_and_order_witness :
    (0 : Nat) < 1 ∧
    ((similaritySearch { vectorstore := none, simple_storage := [chunkA] } ['m'] 1 =
        (([chunkA]).filter
          (fun c => containsSeq (lowerStr c.content) (lowerStr ['m']))).take 1 ∧
      (similaritySearch { vectorstore := none, simple_storage := [chunkA] }
          ['m'] 1).length ≤ 1) ∧
     (similaritySearch { vectorstore := some (fun _ _ => []), simple_storage := [chunkA] }
        ['m'] 1).length ≤ 1) :=
  ⟨by decide,
    similaritySearch_le_k_and_order [chunkA] (fun _ _ => []) ['m'] 1 (by decide)
      (fun q n => by simp)⟩

/-- Every run of the graph visits at most `limit` nodes, and ends either by
reaching `END` or, with the budget fully consumed, by a recursion error —
there is no third outcome and no unbounded looping. -/
theorem runGraph_bounded (o : Oracle) (fuel : Nat) (n : Node) (c : Nat × Nat) :
    (runGraph o fuel n c).1.length ≤ fuel ∧
    ((runGraph o fuel n c).2 = .ended ∨
      ((runGraph o fuel n c).2 = .recursionError ∧
        (runGraph o fuel n c).1.length = fuel)) := by
  induction fuel generalizing n c with
  | zero => exact ⟨Nat.le_refl 0, Or.inr ⟨rfl, rfl⟩⟩
  | succ m ih =>
    rw [runGraph]
    rcases hn : nextNode o n c with ⟨nxt, c'⟩
    cases nxt with
    | none => exact ⟨by simp, Or.inl rfl⟩
    | some nd =>
      have := ih nd c'
      refine ⟨by simpa using Nat.succ_le_succ this.1, ?_⟩
      rcases this.2 with h1 | ⟨h1, h2⟩
      · exact Or.inl (by simpa using h1)
      · exact Or.inr ⟨by simpa using h1, by simpa using h2⟩

/-- C1 counterexample: with the grader never returning the relevant token,
the run under the engine's default recursion limit ends in a recursion
error and the `generate_answer` node is never visited — hitting the bound
does not force a transition to the answer node. -/
theorem runWorkflow_stubborn_never_answers :
    (runWorkflow stubbornOracle defaultRecursionLimit).2 = .recursionError ∧
    Node.generate_answer ∉ (runWorkflow stubbornOracle defaultRecursionLimit).1 := by
  constructor
  · decide
  · decide

/-- C1 amended: the orchestrator never loops unboundedly — every run under
a recursion limit visits at most that many nodes and either reaches `END`
or, with the budget fully spent, aborts with the engine's recursion error
(which the `/search` handler catches); no transition to `generate_answer`
is forced when the bound is hit. -/
theorem runWorkflow_bounded (o : Oracle) (limit : Nat) :
    (runWorkflow o limit).1.length ≤ limit ∧
    ((runWorkflow o limit).2 = .ended ∨
      ((runWorkflow o limit).2 = .recursionError ∧
        (runWorkflow o limit).1.length = limit)) :=
  runGraph_bounded o limit .generate_query_or_respond (0, 0)

/-- C7: `grade_documents` routes to `generate_answer` exactly on the literal
token `"yes"`; every other grader output routes to `rewrite_question`,
never to `generate_answer`. -/
theorem gradeDocuments_fail_safe (s : String) :
    (gradeDocuments s = .generate_answer ↔ s = "yes") ∧
    (s ≠ "yes" → gradeDocuments s = .rewrite_question) := by
  unfold gradeDocuments
  by_cases h : s = "yes" <;> simp [h]

/-- C7, witness: the grader output `"no"` routes to `rewrite_question`. -/
theorem gradeDocuments_fail_safe_witness :
    ((gradeDocuments "no" = .generate_answer ↔ "no" = "yes") ∧
      ("no" ≠ "yes" → gradeDocuments "no" = .rewrite_question)) ∧
    gradeDocuments "no" = .rewrite_question :=
  ⟨gradeDocuments_fail_safe "no", (gradeDocuments_fail_safe "no").2 (by decide)⟩

/-- C8 counterexample: when the graph stream completes without raising but
yields no `generate_answer` update (`final_answer` stays `""` — e.g. the
model answered directly and the graph went `generate_query_or_respond →
END`), the handler surfaces the empty-answer error without attempting the
fallback, even though the very same fallback succeeds when it is actually
attempted. So an error can be returned to the caller although the fallback
did not fail. -/
theorem searchHandler_error_without_fallback :
    searchHandler (Except.ok "") (Except.ok "docs") (fun _ => Except.ok "an answer") =
      Except.error SearchError.noAnswer ∧
    searchHandler (Except.error "boom") (Except.ok "docs")
        (fun _ => Except.ok "an answer") =
      Except.ok { success := true, answer := "an answer" } :=
  ⟨rfl, rfl⟩

/-- C8 amended: when streaming the graph raises, the handler attempts the
simplified fallback (direct retrieval, then one generation) before
surfacing anything, and the both-failed error is returned exactly when the
graph raised and the fallback raised too; but when the graph completes
without producing a non-empty answer (or the fallback's answer is empty),
the handler surfaces an empty-answer error without attempting the
fallback. -/
theorem searchHandler_fallback_policy
    (g fr : Except String String) (fg : String → Except String String) :
    (∀ ge docs a, g = Except.error ge → fr = Except.ok docs →
      fg docs = Except.ok a → a ≠ "" →
        searchHandler g fr fg = Except.ok { success := true, answer := a }) ∧
    (∀ m, searchHandler g fr fg = Except.error (SearchError.bothFailed m) →
      g = Except.error m ∧
        ((∃ e, fr = Except.error e) ∨
          (∃ docs e, fr = Except.ok docs ∧ fg docs = Except.error e))) ∧
    (∀ a, g = Except.ok a → a ≠ "" →
      searchHandler g fr fg = Except.ok { success := true, answer := a }) := by
  refine ⟨?_, ?_, ?_⟩
  · intro ge docs a hg hfr hfga ha
    subst hg
    subst hfr
    simp [searchHandler, hfga, ha]
  · intro m h
    cases g with
    | ok a =>
      by_cases ha : a = "" <;> simp [searchHandler, ha] at h
    | error ge =>
      cases fr with
      | error e =>
        simp [searchHandler] at h
        exact ⟨by rw [h], Or.inl ⟨e, rfl⟩⟩
      | ok docs =>
        cases hfg : fg docs with
        | error e =>
          simp [searchHandler, hfg] at h
          exact ⟨by rw [h], Or.inr ⟨docs, e, rfl, hfg⟩⟩
        | ok a =>
          by_cases ha : a = "" <;> simp [searchHandler, hfg, ha] at h
  · intro a hg ha
    subst hg
    simp [searchHandler, ha]

/-- C8 amended, witness: the fallback rescues a raising graph run. -/
theorem searchHandler_fallback_policy_witness :
    searchHandler (Except.error "graph down") (Except.ok "ctx")
        (fun _ => Except.ok "ans") =
      Except.ok { success := true, answer := "ans" } :=
  (searchHandler_fallback_policy (Except.error "graph down") (Except.ok "ctx")
    (fun _ => Except.ok "ans")).1 "graph down" "ctx" "ans" rfl rfl rfl (by decide)

/-- C9 counterexample: the `SearchResponse` model declares exactly the
fields `success` and `answer` — the response carries neither a
`sources_used` count nor an `execution_path`. -/
theorem searchResponse_missing_fields :
    searchResponseFields = ["success", "answer"] ∧
    "sources_used" ∉ searchResponseFields ∧
    "execution_path" ∉ searchResponseFields :=
  ⟨rfl, by decide, by decide⟩

/-- C9 amended: every response the handler returns carries a `success` flag
set to `true` and a non-empty `answer` string, and those two fields are all
the response contains. -/
theorem searchHandler_response_shape
    (g fr : Except String String) (fg : String → Except String String)
    (r : SearchResponse) (h : searchHandler g fr fg = Except.ok r) :
    r.success = true ∧ r.answer ≠ "" ∧
      searchResponseFields = ["success", "answer"] := by
  have hr : r.success = true ∧ r.answer ≠ "" := by
    cases g with
    | ok a =>
      by_cases ha : a = ""
      · simp [searchHandler, ha] at h
      · simp [searchHandler, ha] at h
        rw [← h]
        exact ⟨rfl, ha⟩
    | error ge =>
      cases fr with
      | error e => simp [searchHandler] at h
      | ok docs =>
        cases hfg : fg docs with
        | error e => simp [searchHandler, hfg] at h
        | ok a =>
          by_cases ha : a = ""
          · simp [searchHandler, hfg, ha] at h
          · simp [searchHandler, hfg, ha] at h
            rw [← h]
            exact ⟨rfl, ha⟩
  exact ⟨hr.1, hr.2, rfl⟩

/-- C9 amended, witness at a concrete successful request. -/
theorem searchHandler_response_shape_witness :
    ({ success := true, answer := "hi" } : SearchResponse).success = true ∧
    ({ success := true, answer := "hi" } : SearchResponse).answer ≠ "" ∧
    searchResponseFields = ["success", "answer"] :=
  searchHandler_response_shape (Except.ok "hi") (Except.ok "")
    (fun _ => Except.ok "") { success := true, answer := "hi" } rfl

end RagSpec
